import Mathlib

/-!
Verification development for the recursive research orchestrator
(`src/deep-research.ts`) and the context-window trimmer
(`src/ai/providers.ts`, function `trimPrompt`).

Texts are modelled as `List Char` (the underlying data of a JavaScript
string for the operations used here: `length`, `slice`, concatenation,
exact equality).  The external collaborators (the structured-output model
calls behind `generateObject`, and the `firecrawl.search` client) are
modelled as an explicit environment `Env` of fallible functions
(`Except Err`), matching the spec's collaborator contracts.  The tokenizer
(`js-tiktoken`, an external library) is an abstract parameter
`tok : Str → Nat`.

General recursion in the source (`trimPrompt` recursing on shorter texts,
`deepResearch` recursing on a strictly smaller `depth`) is embedded with a
structural fuel parameter so that every definition is executable by the
kernel; fuel-irrelevance lemmas show the fuel is an innocent encoding:
`trimPrompt` uses fuel `prompt.length + 1` and `deepResearch` uses fuel
`depth + 1`, which the respective irrelevance lemmas prove sufficient.

Logging (`output.log`) is the only effect of the source not modelled: it
produces no data consumed by the program.  The per-invocation concurrency
limiter (`pLimit(4)`) bounds in-flight collaborator calls but does not
affect which results are produced or merged; units are modelled in the
order `Promise.all` exposes their results (the order of `serpQueries`).
-/

/-- Text, as the character sequence of a JavaScript string. -/
abbrev Str := List Char

instance {ε α : Type} [DecidableEq ε] [DecidableEq α] : DecidableEq (Except ε α) := fun x y =>
  match x, y with
  | .ok a, .ok b =>
    if h : a = b then .isTrue (by rw [h]) else .isFalse (fun he => h (Except.ok.inj he))
  | .error a, .error b =>
    if h : a = b then .isTrue (by rw [h]) else .isFalse (fun he => h (Except.error.inj he))
  | .ok _, .error _ => .isFalse (fun he => Except.noConfusion he)
  | .error _, .ok _ => .isFalse (fun he => Except.noConfusion he)

/-- Collaborator failures: the source distinguishes timeout errors from
other errors only by message content (`e.message.includes('Timeout')`),
and only for logging.  `fuelOut` is an artifact of the fuel encoding of
recursion, proved unreachable from the exported entry points. -/
inductive Err where
  | timeout : Err
  | failure : Str → Err
  | fuelOut : Err
deriving DecidableEq, Repr

/-- One planned unit of search, as returned by the query planner. -/
structure SerpQuery where
  query : Str
  researchGoal : Str
deriving DecidableEq, Repr

/-- One document of a search response (`{ url?, markdown? }`). -/
structure SearchItem where
  url : Option Str
  markdown : Option Str
deriving DecidableEq, Repr

/-- The search collaborator's response (`SearchResponse`, field `data`). -/
structure SearchResponse where
  data : List SearchItem
deriving DecidableEq, Repr

/-- The distiller's structured output (`{ learnings, followUpQuestions }`). -/
structure DistillOutput where
  learnings : List Str
  followUpQuestions : List Str
deriving DecidableEq, Repr

/-- The return value of every orchestrator call. -/
structure ResearchResult where
  learnings : List Str
  visitedUrls : List Str
deriving DecidableEq, Repr

/-- The mutable progress record (`ResearchProgress`). -/
structure ResearchProgress where
  currentDepth : Nat
  totalDepth : Nat
  currentBreadth : Nat
  totalBreadth : Nat
  currentQuery : Option Str
  totalQueries : Nat
  completedQueries : Nat
deriving DecidableEq, Repr

/-- Allocation state for progress records.  Each `deepResearch` invocation
executes `const progress = { ... }`, creating a fresh object; `next` is the
next fresh object identity and `anns` the announcements made so far through
the `onProgress` callback, each tagged with the identity of the record that
was passed to the callback. -/
structure Alloc where
  next : Nat
  anns : List (Nat × ResearchProgress)
deriving DecidableEq, Repr

/-- The external collaborators of the core, per the spec's §6 interface
boundary: the query-planner model call (raw structured output, before the
source's `slice`), the search client, the distiller model call (receiving
the query, the trimmed contents, and the two requested maxima, all of
which appear in the prompt/schema of the source), and the tokenizer. -/
structure Env where
  planRaw : Str → Nat → List Str → Except Err (List SerpQuery)
  search : Str → Except Err SearchResponse
  distill : Str → List Str → Nat → Nat → Except Err DistillOutput
  tok : Str → Nat

/-- Lodash `compact` on a list of optional strings: drops missing values
and (because `''` is falsy) empty strings. -/
def compactStr (l : List (Option Str)) : List Str :=
  (l.filterMap id).filter (fun s => !s.isEmpty)

/-- First-occurrence deduplication with an accumulator of already-seen
elements; `dedupFirst` below is `[...new Set(xs)]`. -/
def dedupAux (seen : List Str) : List Str → List Str
  | [] => []
  | x :: xs => if x ∈ seen then dedupAux seen xs else x :: dedupAux (x :: seen) xs

/-- JavaScript `[...new Set(xs)]`: keep the first occurrence of each
element, in order. -/
def dedupFirst (l : List Str) : List Str :=
  dedupAux [] l

/-- Whitespace for the purposes of JavaScript `String.prototype.trim`
(restricted to the characters that occur in the orchestrator's template). -/
def isWS (c : Char) : Bool :=
  c = ' ' || c = '\n' || c = '\t' || c = '\r'

/-- JavaScript `s.trim()`: strip leading and trailing whitespace. -/
def jsTrim (s : Str) : Str :=
  ((s.dropWhile isWS).reverse.dropWhile isWS).reverse

/-- The synthesized next-round query of `deepResearch` (the template
literal combining the research goal with the follow-up questions, then
`.trim()`). -/
def mkNextQuery (goal : Str) (followUps : List Str) : Str :=
  jsTrim ("\n            Previous research goal: ".toList ++ goal
    ++ "\n            Follow-up research directions: ".toList
    ++ (followUps.map (fun q => '\n' :: q)).foldr (· ++ ·) []
    ++ "\n          ".toList)

/-- `Math.ceil(breadth / 2)` for a natural `breadth`. -/
def childBreadth (breadth : Nat) : Nat :=
  (breadth + 1) / 2

/-- `depth - 1`; for `depth = 0` the source computes `-1`, which behaves
identically here because the only use is the comparison `newDepth > 0`
and the leaf branch then reports `currentDepth: 0`. -/
def childDepth (depth : Nat) : Nat :=
  depth - 1

/-! ## Context window trimmer (`src/ai/providers.ts`) -/

/-- The `MinChunkSize` constant of `providers.ts`. -/
def MinChunkSize : Nat := 140

/-- Index of the last whitespace character of a text, if any. -/
def lastWSIdx : Str → Option Nat
  | [] => none
  | c :: cs =>
    match lastWSIdx cs with
    | some k => some (k + 1)
    | none => if isWS c then some 0 else none

/-- Modelled from the spec: the repository's `RecursiveCharacterTextSplitter`
(`src/ai/text-splitter.ts`, imported by `providers.ts` but absent from the
provided sources) is described as "a boundary-aware recursive splitter
(prefers paragraph, then sentence, then word boundaries; never splits
mid-character-cluster)" producing "candidate chunks of approximately the
target length"; only `splitText(prompt)[0]` is consumed.  The first chunk
is modelled as the longest prefix of at most the target length that ends
at a boundary, falling back to the first whole word when the first word
alone exceeds the target (so that a single unsplittable run yields the
run itself and the splitter "makes no progress"). -/
def firstChunk (chunkSize : Nat) (t : Str) : Str :=
  if t.length ≤ chunkSize then t
  else
    match lastWSIdx (t.take chunkSize) with
    | some k => t.take k
    | none =>
      match t.findIdx? isWS with
      | some j => t.take j
      | none => t

/-- The recursive trimmer `trimPrompt`, with structural fuel.  Each step is
a direct transcription of `providers.ts`: empty text returns empty; a text
within the token budget is returned unchanged; otherwise the character
target is `prompt.length - overflowTokens * 3`; below `MinChunkSize` the
first `MinChunkSize` characters are returned without re-checking the
budget; otherwise the first splitter chunk is taken, with a hard slice at
the target when the splitter made no progress, and the function recurses.
Fuel `0` returns the text unchanged; `trim_fuel_irrel` shows any fuel
above `prompt.length` gives the same value, so `trimPrompt` below is
fuel-free in substance. -/
def trimPromptF (tok : Str → Nat) : Nat → Str → Nat → Str
  | 0, p, _ => p
  | fuel + 1, p, contextSize =>
    if p = [] then []
    else
      let length := tok p
      if length ≤ contextSize then p
      else
        let overflowTokens := length - contextSize
        let targetChunkSize := p.length - overflowTokens * 3
        if targetChunkSize < MinChunkSize then p.take MinChunkSize
        else
          let trimmedPrompt := firstChunk targetChunkSize p
          if trimmedPrompt.length = p.length then
            trimPromptF tok fuel (p.take targetChunkSize) contextSize
          else
            trimPromptF tok fuel trimmedPrompt contextSize

/-- `trimPrompt` of `providers.ts` (the `contextSize` default is supplied
by callers; the orchestrator always passes it explicitly). -/
def trimPrompt (tok : Str → Nat) (prompt : Str) (contextSize : Nat) : Str :=
  trimPromptF tok (prompt.length + 1) prompt contextSize

/-! ## Planner and distiller (`src/deep-research.ts`) -/

/-- `generateSerpQueries`: ask the model collaborator, then
`res.object.queries.slice(0, numQueries)`. -/
def generateSerpQueries (env : Env) (query : Str) (numQueries : Nat)
    (learnings : List Str) : Except Err (List SerpQuery) :=
  (env.planRaw query numQueries learnings).map (fun qs => qs.take numQueries)

/-- The trimmed contents assembled by `processSerpResult`:
`compact(result.data.map(item => item.markdown)).map(content =>
trimPrompt(content, 25_000))`. -/
def mkContents (env : Env) (result : SearchResponse) : List Str :=
  (compactStr (result.data.map (fun i => i.markdown))).map
    (fun content => trimPrompt env.tok content 25000)

/-- `processSerpResult`: trim the usable contents, ask the model
collaborator, and return `res.object` unchanged (the source does not
truncate the returned lists to the requested maxima; the maxima appear
only in the prompt and in the schema descriptions). -/
def processSerpResult (env : Env) (query : Str) (result : SearchResponse)
    (numLearnings numFollowUpQuestions : Nat) : Except Err DistillOutput :=
  env.distill query (mkContents env result) numLearnings numFollowUpQuestions

/-! ## Orchestrator (`deepResearch`) -/

/-- The progress record as first mutated after planning succeeds:
`reportProgress({ totalQueries: serpQueries.length, currentQuery:
serpQueries[0]?.query })` applied to the freshly created record. -/
def planProgress (breadth depth : Nat) (serpQueries : List SerpQuery) :
    ResearchProgress :=
  { currentDepth := depth, totalDepth := depth, currentBreadth := breadth
    totalBreadth := breadth, currentQuery := serpQueries.head?.map (fun q => q.query)
    totalQueries := serpQueries.length, completedQueries := 0 }

/-- The progress update of the recursing branch:
`reportProgress({ currentDepth: newDepth, currentBreadth: newBreadth,
completedQueries: progress.completedQueries + 1, currentQuery:
serpQuery.query })`. -/
def recurseProgress (p : ResearchProgress) (breadth depth : Nat)
    (sq : SerpQuery) : ResearchProgress :=
  { p with currentDepth := childDepth depth, currentBreadth := childBreadth breadth
           completedQueries := p.completedQueries + 1, currentQuery := some sq.query }

/-- The progress update of the leaf branch: `reportProgress({ currentDepth:
0, completedQueries: progress.completedQueries + 1, currentQuery:
serpQuery.query })`. -/
def leafProgress (p : ResearchProgress) (sq : SerpQuery) : ResearchProgress :=
  { p with currentDepth := 0, completedQueries := p.completedQueries + 1
           currentQuery := some sq.query }

/-- One scheduled unit of work of `deepResearch` (the body passed to
`limit(async () => { try ... catch ... })`), parameterized by the
recursive call `recur` it performs when depth remains.

A failure of the search call or of the distiller call is caught by the
unit's `catch` and becomes `{ learnings: [], visitedUrls: [] }` with no
progress update.  The recursive call, however, is written in the source as
`return deepResearch({...})` without `await`: the async unit then resolves
to the child promise after the `try` block has already completed, so a
rejection of the child bypasses this unit's `catch` and rejects the unit
itself.  Accordingly `recur`'s error is returned as the unit's error. -/
def runUnit (recur : Str → Nat → Nat → List Str → List Str → Alloc →
      Except Err ResearchResult × Alloc)
    (env : Env) (breadth depth : Nat) (learnings visitedUrls : List Str)
    (progress : ResearchProgress) (pid : Nat) (a : Alloc) (sq : SerpQuery) :
    Except Err ResearchResult × ResearchProgress × Alloc :=
  match env.search sq.query with
  | .error _e => (.ok ⟨[], []⟩, progress, a)
  | .ok result =>
    let newUrls := compactStr (result.data.map (fun item => item.url))
    let newBreadth := childBreadth breadth
    let newDepth := childDepth depth
    match processSerpResult env sq.query result 5 newBreadth with
    | .error _e => (.ok ⟨[], []⟩, progress, a)
    | .ok newLearnings =>
      let allLearnings := learnings ++ newLearnings.learnings
      let allUrls := visitedUrls ++ newUrls
      if 0 < newDepth then
        let p1 := recurseProgress progress breadth depth sq
        let a1 : Alloc := ⟨a.next, a.anns ++ [(pid, p1)]⟩
        let nextQuery := mkNextQuery sq.researchGoal newLearnings.followUpQuestions
        let rc := recur nextQuery newBreadth newDepth allLearnings allUrls a1
        (rc.1, p1, rc.2)
      else
        let p1 := leafProgress progress sq
        let a1 : Alloc := ⟨a.next, a.anns ++ [(pid, p1)]⟩
        (.ok ⟨allLearnings, allUrls⟩, p1, a1)

/-- The scheduled units of one invocation, in the order `Promise.all`
returns their results.  A unit's (uncaught) error rejects the whole
`Promise.all`, modelled as an `error` overall result. -/
def runUnits (recur : Str → Nat → Nat → List Str → List Str → Alloc →
      Except Err ResearchResult × Alloc)
    (env : Env) (sqs : List SerpQuery) (breadth depth : Nat)
    (learnings visitedUrls : List Str) (progress : ResearchProgress)
    (pid : Nat) (a : Alloc) :
    Except Err (List ResearchResult) × ResearchProgress × Alloc :=
  match sqs with
  | [] => (.ok [], progress, a)
  | sq :: rest =>
    match runUnit recur env breadth depth learnings visitedUrls progress pid a sq with
    | (.error e, p1, a1) => (.error e, p1, a1)
    | (.ok r, p1, a1) =>
      match runUnits recur env rest breadth depth learnings visitedUrls p1 pid a1 with
      | (.error e, p2, a2) => (.error e, p2, a2)
      | (.ok rs, p2, a2) => (.ok (r :: rs), p2, a2)

/-- `deepResearch`, with structural fuel.  Each invocation allocates its
own fresh progress record (`const progress = {...}`), calls the planner
(whose failure propagates out of this call: the planning `await` is not
inside any `try`), announces the query count, runs the units, and merges
their results with `[...new Set(...)]` over learnings and over URLs.
Fuel `0` fails with the reserved `fuelOut` error;
`deepResearchF_fuel_irrel` shows any fuel above `depth` gives the same
value, so `deepResearch` below (fuel `depth + 1`) is fuel-free in
substance — this mirrors the source, where the recursion is on
`newDepth = depth - 1` guarded by `newDepth > 0`. -/
def deepResearchF (env : Env) : Nat → Str → Nat → Nat → List Str → List Str →
    Alloc → Except Err ResearchResult × Alloc
  | 0, _query, _breadth, _depth, _learnings, _visitedUrls, a => (.error .fuelOut, a)
  | fuel + 1, query, breadth, depth, learnings, visitedUrls, a =>
    let pid := a.next
    let a1 : Alloc := ⟨a.next + 1, a.anns⟩
    match generateSerpQueries env query breadth learnings with
    | .error e => (.error e, a1)
    | .ok serpQueries =>
      let progress1 := planProgress breadth depth serpQueries
      let a2 : Alloc := ⟨a1.next, a1.anns ++ [(pid, progress1)]⟩
      match runUnits (deepResearchF env fuel) env serpQueries breadth depth
          learnings visitedUrls progress1 pid a2 with
      | (.error e, _p, a3) => (.error e, a3)
      | (.ok results, _p, a3) =>
        (.ok ⟨dedupFirst (results.map (fun r => r.learnings)).flatten,
              dedupFirst (results.map (fun r => r.visitedUrls)).flatten⟩, a3)

/-- The exported `deepResearch` entry point. -/
def deepResearch (env : Env) (query : Str) (breadth depth : Nat)
    (learnings visitedUrls : List Str) (a : Alloc) :
    Except Err ResearchResult × Alloc :=
  deepResearchF env (depth + 1) query breadth depth learnings visitedUrls a

/-- A concrete tokenizer instantiating the abstract tokenizer interface:
one token per three characters (rounded up), the calibration the source
itself assumes with its `overflowTokens * 3` estimate. -/
def charTok3 : Str → Nat := fun s => (s.length + 2) / 3

/-- Decides whether a unit's caught failure path is taken: the search call
fails, or the search succeeds and the distiller call fails.  These are
exactly the awaited steps inside the unit's `try` block. -/
def unitFails (env : Env) (breadth : Nat) (sq : SerpQuery) : Bool :=
  match env.search sq.query with
  | .error _ => true
  | .ok result =>
    match processSerpResult env sq.query result 5 (childBreadth breadth) with
    | .error _ => true
    | .ok _ => false

/-- The visibly non-recursive single planning+search+distill pass a unit
performs at depth 0: on success it returns the branch-local accumulation,
on a caught failure the empty result. -/
def leafUnit (env : Env) (breadth : Nat) (learnings visitedUrls : List Str)
    (sq : SerpQuery) : ResearchResult :=
  match env.search sq.query with
  | .error _ => ⟨[], []⟩
  | .ok result =>
    match processSerpResult env sq.query result 5 (childBreadth breadth) with
    | .error _ => ⟨[], []⟩
    | .ok out =>
      ⟨learnings ++ out.learnings,
       visitedUrls ++ compactStr (result.data.map (fun item => item.url))⟩

/-- Characterization of the source's final merge: the result lists are the
concatenation of the units' lists deduplicated by exact string equality
keeping first occurrences (`[...new Set(results.flatMap(..))]`); they are
therefore duplicate-free, contain exactly the strings contributed by some
unit, and preserve first-occurrence order (they are sublists of the
concatenation). -/
def MergedFrom (rs : List ResearchResult) (r : ResearchResult) : Prop :=
  r.learnings = dedupFirst ((rs.map (fun u => u.learnings)).flatten) ∧
  r.visitedUrls = dedupFirst ((rs.map (fun u => u.visitedUrls)).flatten) ∧
  r.learnings.Nodup ∧ r.visitedUrls.Nodup ∧
  (∀ x, x ∈ r.learnings ↔ ∃ u ∈ rs, x ∈ u.learnings) ∧
  (∀ x, x ∈ r.visitedUrls ↔ ∃ u ∈ rs, x ∈ u.visitedUrls) ∧
  r.learnings.Sublist ((rs.map (fun u => u.learnings)).flatten) ∧
  r.visitedUrls.Sublist ((rs.map (fun u => u.visitedUrls)).flatten)

/-- `AllocExt lo a b`: the allocation state `b` extends `a`: no identity
is retired, the announcement log only grows, and every announcement added
between `a` and `b` is made on a record with identity at least `lo` (and,
being a real record, below the next-fresh counter of `b`). -/
def AllocExt (lo : Nat) (a b : Alloc) : Prop :=
  a.next ≤ b.next ∧
  ∃ new, b.anns = a.anns ++ new ∧ ∀ x ∈ new, lo ≤ x.1 ∧ x.1 < b.next

/-! ## Concrete scenarios used by witnesses and counterexamples

Search responses in the scenarios carry URLs but no markdown bodies, so
the distiller's content list is empty; the scenario model collaborators
answer by query text (which is what the source puts in every prompt). -/

def rootQ : Str := "root topic".toList

def qA : SerpQuery := ⟨"serp A".toList, "goal A".toList⟩

def qB : SerpQuery := ⟨"serp B".toList, "goal B".toList⟩

def qTO : SerpQuery := ⟨"serp timeout".toList, "goal T".toList⟩

def itemU1 : SearchItem := ⟨some "https://u1".toList, none⟩

def itemU2 : SearchItem := ⟨some "https://u2".toList, none⟩

def wOut : DistillOutput := ⟨["L1".toList], ["F1".toList]⟩

/-- Scenario: two sibling branches both discover the learning "L1". -/
def envC2 : Env where
  planRaw := fun _q _n _l => .ok [qA, qB]
  search := fun q => if q = qA.query then .ok ⟨[itemU1]⟩ else .ok ⟨[itemU2]⟩
  distill := fun _q _c _nl _nf => .ok ⟨["L1".toList], []⟩
  tok := fun s => s.length

/-- Scenario: the search for `qTO` times out while `qB` succeeds. -/
def envC1w : Env where
  planRaw := fun _q _n _l => .ok [qTO, qB]
  search := fun q => if q = qTO.query then .error .timeout else .ok ⟨[itemU2]⟩
  distill := fun _q _c _nl _nf => .ok ⟨["LB".toList], []⟩
  tok := fun s => s.length

/-- Scenario: at depth 2, branch A's child planner returns no queries while
branch B's child planner fails. -/
def envC1x : Env where
  planRaw := fun q _n _l =>
    if q = rootQ then .ok [qA, qB]
    else if q = mkNextQuery qB.researchGoal ["F1".toList] then
      .error (.failure "planner down".toList)
    else .ok []
  search := fun _q => .ok ⟨[itemU1]⟩
  distill := fun _q _c _nl _nf => .ok wOut
  tok := fun s => s.length

/-- Scenario: plan, search and distill all succeed; used to drive a unit
into its recursion branch. -/
def envRec : Env where
  planRaw := fun _q _n _l => .ok [qA]
  search := fun _q => .ok ⟨[itemU1]⟩
  distill := fun _q _c _nl _nf => .ok wOut
  tok := fun s => s.length

/-- A recursive-call stand-in that always fails, echoing its allocation
state. -/
def recurW : Str → Nat → Nat → List Str → List Str → Alloc →
    Except Err ResearchResult × Alloc :=
  fun _q _b _d _l _v a => (.error (.failure "boom".toList), a)

/-- Scenario: the root planner itself fails. -/
def envC8w1 : Env where
  planRaw := fun _q _n _l => .error (.failure "nope".toList)
  search := fun _q => .ok ⟨[]⟩
  distill := fun _q _c _nl _nf => .ok ⟨[], []⟩
  tok := fun s => s.length

/-- Scenario: the planner of the nested (depth 1) call fails while the
root plan, search and distill succeed. -/
def envC8x : Env where
  planRaw := fun q _n _l =>
    if q = rootQ then .ok [qA] else .error (.failure "no plan".toList)
  search := fun _q => .ok ⟨[itemU1]⟩
  distill := fun _q _c _nl _nf => .ok wOut
  tok := fun s => s.length

/-- Scenario: a successful two-level recursion (depth 2, breadth 1). -/
def envC9x : Env where
  planRaw := fun q _n _l => if q = rootQ then .ok [qA] else .ok [qB]
  search := fun _q => .ok ⟨[itemU1]⟩
  distill := fun _q _c _nl _nf => .ok wOut
  tok := fun s => s.length

/-- Scenario: the model collaborator returns six learnings although five
were requested. -/
def envC7 : Env where
  planRaw := fun _q _n _l => .ok []
  search := fun _q => .ok ⟨[]⟩
  distill := fun _q _c _nl _nf =>
    .ok ⟨["a".toList, "b".toList, "c".toList, "d".toList, "e".toList, "f".toList], []⟩
  tok := fun s => s.length

/-- Scenario: the model collaborator honours the requested maxima. -/
def envC7w : Env where
  planRaw := fun _q _n _l => .ok []
  search := fun _q => .ok ⟨[]⟩
  distill := fun _q _c _nl _nf => .ok ⟨["a".toList], ["b".toList]⟩
  tok := fun s => s.length

/-- Scenario: both scheduled units fail (a timeout and a search error)
while the caller passes non-empty accumulators. -/
def envC10 : Env where
  planRaw := fun _q _n _l => .ok [qA, qB]
  search := fun q =>
    if q = qA.query then .error .timeout else .error (.failure "down".toList)
  distill := fun _q _c _nl _nf => .ok ⟨[], []⟩
  tok := fun s => s.length

/-! ## Helper lemmas: deduplication -/

theorem mem_dedupAux (seen : List Str) (l : List Str) (x : Str) :
    x ∈ dedupAux seen l ↔ x ∈ l ∧ x ∉ seen := by
  induction l generalizing seen with
  | nil => simp [dedupAux]
  | cons y ys ih =>
    simp only [dedupAux]
    split
    · rename_i hy
      rw [ih]
      constructor
      · rintro ⟨hx, hs⟩
        exact ⟨List.mem_cons_of_mem _ hx, hs⟩
      · rintro ⟨hx, hs⟩
        rcases List.mem_cons.mp hx with rfl | hx
        · exact absurd hy hs
        · exact ⟨hx, hs⟩
    · rename_i hy
      simp only [List.mem_cons, ih, List.mem_cons]
      constructor
      · rintro (rfl | ⟨hx, hs⟩)
        · exact ⟨Or.inl rfl, hy⟩
        · exact ⟨Or.inr hx, fun hc => hs (Or.inr hc)⟩
      · rintro ⟨rfl | hx, hs⟩
        · exact Or.inl rfl
        · by_cases hxy : x = y
          · exact Or.inl hxy
          · exact Or.inr ⟨hx, fun hc => hs (hc.resolve_left hxy)⟩

theorem nodup_dedupAux (seen : List Str) (l : List Str) :
    (dedupAux seen l).Nodup := by
  induction l generalizing seen with
  | nil => simp [dedupAux]
  | cons y ys ih =>
    simp only [dedupAux]
    split
    · exact ih seen
    · refine List.nodup_cons.mpr ⟨fun hc => ?_, ih (y :: seen)⟩
      exact ((mem_dedupAux _ _ _).mp hc).2 (List.mem_cons_self _ _)

theorem sublist_dedupAux (seen : List Str) (l : List Str) :
    (dedupAux seen l).Sublist l := by
  induction l generalizing seen with
  | nil => simp [dedupAux]
  | cons y ys ih =>
    simp only [dedupAux]
    split
    · exact (ih seen).cons y
    · exact (ih (y :: seen)).cons₂ y

theorem mem_dedupFirst (l : List Str) (x : Str) : x ∈ dedupFirst l ↔ x ∈ l := by
  rw [dedupFirst, mem_dedupAux]
  simp

theorem nodup_dedupFirst (l : List Str) : (dedupFirst l).Nodup :=
  nodup_dedupAux [] l

theorem sublist_dedupFirst (l : List Str) : (dedupFirst l).Sublist l :=
  sublist_dedupAux [] l

/-! ## Helper lemmas: the splitter model and the trimmer -/

theorem firstChunk_length_le (n : Nat) (t : Str) :
    (firstChunk n t).length ≤ t.length := by
  rw [firstChunk]
  split
  · exact Nat.le_refl _
  · split
    · rw [List.length_take]
      exact Nat.min_le_right _ _
    · split
      · rw [List.length_take]
        exact Nat.min_le_right _ _
      · exact Nat.le_refl _

theorem trim_target_lt (tok : Str → Nat) (p : Str) (c : Nat)
    (hne : p ≠ []) (hgt : ¬ tok p ≤ c) :
    p.length - (tok p - c) * 3 < p.length := by
  have hpos : 0 < p.length := List.length_pos.mpr hne
  have : 1 ≤ tok p - c := by omega
  omega

theorem trimPromptF_irrel (tok : Str → Nat) (f1 f2 : Nat) (p : Str) (c : Nat)
    (h1 : p.length < f1) (h2 : p.length < f2) :
    trimPromptF tok f1 p c = trimPromptF tok f2 p c := by
  induction f1 generalizing f2 p c with
  | zero => omega
  | succ f1 ih =>
    obtain ⟨f2, rfl⟩ : ∃ g, f2 = g + 1 := ⟨f2 - 1, by omega⟩
    simp only [trimPromptF]
    by_cases hp : p = []
    · simp [hp]
    · simp only [hp, if_false]
      by_cases hc : tok p ≤ c
      · simp [hc]
      · simp only [hc, if_false]
        by_cases hm : p.length - (tok p - c) * 3 < MinChunkSize
        · simp [hm]
        · simp only [hm, if_false]
          have htlt : p.length - (tok p - c) * 3 < p.length := trim_target_lt tok p c hp hc
          by_cases hs : (firstChunk (p.length - (tok p - c) * 3) p).length = p.length
          · simp only [hs, if_true]
            have hlen : (p.take (p.length - (tok p - c) * 3)).length < p.length := by
              rw [List.length_take]
              omega
            exact ih _ _ _ (by omega) (by omega)
          · simp only [hs, if_false]
            have hlen : (firstChunk (p.length - (tok p - c) * 3) p).length < p.length :=
              Nat.lt_of_le_of_ne (firstChunk_length_le _ _) hs
            exact ih _ _ _ (by omega) (by omega)

theorem trimPromptF_budget (tok : Str → Nat) (fuel : Nat) (p : Str) (c : Nat)
    (h : p.length < fuel) :
    tok (trimPromptF tok fuel p c) ≤ c ∨
      (trimPromptF tok fuel p c).length ≤ MinChunkSize := by
  induction fuel generalizing p c with
  | zero => omega
  | succ fuel ih =>
    simp only [trimPromptF]
    by_cases hp : p = []
    · simp [hp, MinChunkSize]
    · simp only [hp, if_false]
      by_cases hc : tok p ≤ c
      · simp [hc]
      · simp only [hc, if_false]
        by_cases hm : p.length - (tok p - c) * 3 < MinChunkSize
        · simp only [hm, if_true]
          refine Or.inr ?_
          rw [List.length_take]
          exact Nat.min_le_left _ _
        · simp only [hm, if_false]
          have htlt : p.length - (tok p - c) * 3 < p.length := trim_target_lt tok p c hp hc
          by_cases hs : (firstChunk (p.length - (tok p - c) * 3) p).length = p.length
          · simp only [hs, if_true]
            have hlen : (p.take (p.length - (tok p - c) * 3)).length < p.length := by
              rw [List.length_take]
              omega
            exact ih _ _ (by omega)
          · simp only [hs, if_false]
            have hlen : (firstChunk (p.length - (tok p - c) * 3) p).length < p.length :=
              Nat.lt_of_le_of_ne (firstChunk_length_le _ _) hs
            exact ih _ _ (by omega)

/-! ## Claims C5 and C6: the context window trimmer -/

/-- C6: the trimmer terminates on every input: the recursion of
`trimPrompt` needs at most `prompt.length` unfoldings, because every
recursive self-call either strictly shrinks the text (hard slice at the
target, or a splitter chunk of strictly smaller length) or returns at the
minimum-chunk floor.  Formally: running the recursion with any fuel
greater than the input length computes the same value as `trimPrompt`
(which uses fuel `prompt.length + 1`), so the fuel never runs out. -/
theorem c6_fuel_termination (tok : Str → Nat) (fuel : Nat) (p : Str) (c : Nat)
    (h : p.length < fuel) :
    trimPromptF tok fuel p c = trimPrompt tok p c :=
  trimPromptF_irrel tok fuel (p.length + 1) p c h (Nat.lt_succ_self _)


/-- Witness for C6 at a concrete input. -/
theorem c6_fuel_termination_witness :
    "hello world".toList.length < 50 ∧
      trimPromptF charTok3 50 "hello world".toList 2 =
        trimPrompt charTok3 "hello world".toList 2 :=
  ⟨by decide, c6_fuel_termination charTok3 50 "hello world".toList 2 (by decide)⟩

set_option maxRecDepth 4000 in
/-- C5 as stated is false: when the estimated target length falls below
`MinChunkSize`, the source returns `prompt.slice(0, MinChunkSize)` without
re-checking the token budget.  Here a 300-character prompt trimmed to a
budget of 5 tokens returns 140 characters, i.e. 47 tokens under the very
3-characters-per-token calibration the source uses. -/
theorem c5_counterexample :
    ¬ charTok3 (trimPrompt charTok3 (List.replicate 300 'a') 5) ≤ 5 := by
  decide

/-- C5 amended: the trimmed output fits the token budget in every case
except the degenerate minimum-chunk floor, where the output is the first
`MinChunkSize` characters (hence at most `MinChunkSize` characters long)
and may exceed the budget. -/
theorem c5_amended (tok : Str → Nat) (p : Str) (c : Nat) :
    tok (trimPrompt tok p c) ≤ c ∨ (trimPrompt tok p c).length ≤ MinChunkSize :=
  trimPromptF_budget tok (p.length + 1) p c (Nat.lt_succ_self _)

/-! ## Helper lemmas: scheduled units -/


theorem runUnit_of_fails (recur : Str → Nat → Nat → List Str → List Str → Alloc →
      Except Err ResearchResult × Alloc)
    (env : Env) (b d : Nat) (l v : List Str) (p : ResearchProgress)
    (pid : Nat) (a : Alloc) (sq : SerpQuery)
    (h : unitFails env b sq = true) :
    runUnit recur env b d l v p pid a sq = (.ok ⟨[], []⟩, p, a) := by
  rcases hs : env.search sq.query with e | res
  · simp only [runUnit, hs]
  · rcases hp : processSerpResult env sq.query res 5 (childBreadth b) with e | out
    · simp only [runUnit, hs, hp]
    · simp [unitFails, hs, hp] at h

theorem runUnits_all_fail (recur : Str → Nat → Nat → List Str → List Str → Alloc →
      Except Err ResearchResult × Alloc)
    (env : Env) (qs : List SerpQuery) (b d : Nat) (l v : List Str)
    (p : ResearchProgress) (pid : Nat) (a : Alloc)
    (h : ∀ sq ∈ qs, unitFails env b sq = true) :
    runUnits recur env qs b d l v p pid a =
      (.ok (qs.map (fun _ => (⟨[], []⟩ : ResearchResult))), p, a) := by
  induction qs generalizing p a with
  | nil => rfl
  | cons sq rest ih =>
    have hu := runUnit_of_fails recur env b d l v p pid a sq (h sq (List.mem_cons_self _ _))
    have ht := ih p a (fun q hq => h q (List.mem_cons_of_mem _ hq))
    simp only [runUnits, hu, ht, List.map_cons]

theorem flatten_map_const_nil {α : Type} (qs : List α) :
    (qs.map (fun _ => ([] : List Str))).flatten = [] := by
  induction qs with
  | nil => rfl
  | cons q rest ih => simp [ih]

/-! ## Claim C10: empty plans and all-failing units yield an empty result -/

/-- C10: if the planner returns zero sub-queries, or every scheduled unit
fails (in its search or distill step, the failures the unit recovers
from), the call returns `{ learnings: [], visitedUrls: [] }` — the
caller-supplied accumulators `l` and `v`, however non-empty, do not reach
the output, because each unit contributes either its branch-local copy
(only on success) or the empty result. -/
theorem c10_empty_result (env : Env) (q : Str) (b d : Nat) (l v : List Str)
    (a : Alloc) (qs : List SerpQuery)
    (hplan : generateSerpQueries env q b l = .ok qs)
    (hfail : qs.all (fun sq => unitFails env b sq) = true) :
    (deepResearch env q b d l v a).1 = .ok ⟨[], []⟩ := by
  have h : ∀ sq ∈ qs, unitFails env b sq = true := by
    intro sq hsq
    exact List.all_eq_true.mp hfail sq hsq
  rw [deepResearch]
  have hall := runUnits_all_fail (deepResearchF env d) env qs b d l v
    (planProgress b d qs) a.next ⟨a.next + 1, a.anns ++ [(a.next, planProgress b d qs)]⟩ h
  simp only [deepResearchF, hplan, hall]
  simp [List.map_map, flatten_map_const_nil, dedupFirst, dedupAux]

/-! ## Claim C4: depth 0 performs one pass per sub-query, without recursion -/


theorem runUnit_depth_zero (recur : Str → Nat → Nat → List Str → List Str → Alloc →
      Except Err ResearchResult × Alloc)
    (env : Env) (b : Nat) (l v : List Str) (p : ResearchProgress)
    (pid : Nat) (a : Alloc) (sq : SerpQuery) :
    ∃ p2 a2, runUnit recur env b 0 l v p pid a sq =
      (.ok (leafUnit env b l v sq), p2, a2) := by
  rcases hs : env.search sq.query with e | res
  · exact ⟨p, a, by simp only [runUnit, leafUnit, hs]⟩
  · rcases hp : processSerpResult env sq.query res 5 (childBreadth b) with e | out
    · exact ⟨p, a, by simp only [runUnit, leafUnit, hs, hp]⟩
    · exact ⟨leafProgress p sq, ⟨a.next, a.anns ++ [(pid, leafProgress p sq)]⟩, by
        simp only [runUnit, leafUnit, hs, hp, childDepth]
        norm_num⟩

theorem runUnits_depth_zero (recur : Str → Nat → Nat → List Str → List Str → Alloc →
      Except Err ResearchResult × Alloc)
    (env : Env) (qs : List SerpQuery) (b : Nat) (l v : List Str)
    (p : ResearchProgress) (pid : Nat) (a : Alloc) :
    (runUnits recur env qs b 0 l v p pid a).1 =
      .ok (qs.map (leafUnit env b l v)) := by
  induction qs generalizing p a with
  | nil => rfl
  | cons sq rest ih =>
    obtain ⟨p2, a2, hu⟩ := runUnit_depth_zero recur env b l v p pid a sq
    have htail := ih p2 a2
    rcases ht : runUnits recur env rest b 0 l v p2 pid a2 with ⟨r1, pa⟩
    rw [ht] at htail
    simp only at htail
    subst htail
    simp only [runUnits, hu, ht, List.map_cons]

/-- C4: with `depth = 0` every unit takes the leaf branch: the call's
result is exactly the planner's queries each put through the
single-pass `leafUnit` (search, then distill, then return the
branch-local learnings and URLs directly) and merged — no recursive
`deepResearch` call contributes anything. -/
theorem c4_depth_zero (env : Env) (q : Str) (b : Nat) (l v : List Str) (a : Alloc) :
    (deepResearch env q b 0 l v a).1 =
      (generateSerpQueries env q b l).map (fun qs =>
        (⟨dedupFirst ((qs.map (leafUnit env b l v)).map (fun r => r.learnings)).flatten,
          dedupFirst ((qs.map (leafUnit env b l v)).map (fun r => r.visitedUrls)).flatten⟩ :
          ResearchResult)) := by
  rw [deepResearch]
  rcases hp : generateSerpQueries env q b l with e | qs
  · simp only [deepResearchF, hp, Except.map]
  · have hr := runUnits_depth_zero (deepResearchF env 0) env qs b l v
      (planProgress b 0 qs) a.next ⟨a.next + 1, a.anns ++ [(a.next, planProgress b 0 qs)]⟩
    rcases ht : runUnits (deepResearchF env 0) env qs b 0 l v
      (planProgress b 0 qs) a.next ⟨a.next + 1, a.anns ++ [(a.next, planProgress b 0 qs)]⟩
      with ⟨r1, p3, a3⟩
    rw [ht] at hr
    simp only at hr
    subst hr
    simp only [deepResearchF, hp, Except.map]
    simp only [deepResearchF] at ht
    rw [ht]

/-! ## Claim C2: set-union merge with first-occurrence deduplication -/


theorem mergedFrom_mk (rs : List ResearchResult) :
    MergedFrom rs
      ⟨dedupFirst ((rs.map (fun u => u.learnings)).flatten),
       dedupFirst ((rs.map (fun u => u.visitedUrls)).flatten)⟩ := by
  refine ⟨rfl, rfl, nodup_dedupFirst _, nodup_dedupFirst _, ?_, ?_,
    sublist_dedupFirst _, sublist_dedupFirst _⟩
  · intro x
    rw [mem_dedupFirst, List.mem_flatten]
    constructor
    · rintro ⟨s, hs, hx⟩
      obtain ⟨u, hu, rfl⟩ := List.mem_map.mp hs
      exact ⟨u, hu, hx⟩
    · rintro ⟨u, hu, hx⟩
      exact ⟨u.learnings, List.mem_map.mpr ⟨u, hu, rfl⟩, hx⟩
  · intro x
    rw [mem_dedupFirst, List.mem_flatten]
    constructor
    · rintro ⟨s, hs, hx⟩
      obtain ⟨u, hu, rfl⟩ := List.mem_map.mp hs
      exact ⟨u, hu, hx⟩
    · rintro ⟨u, hu, hx⟩
      exact ⟨u.visitedUrls, List.mem_map.mpr ⟨u, hu, rfl⟩, hx⟩

/-- C2: every successful `deepResearch` call returns exactly the
first-occurrence set union of the unit results: its planner produced some
queries `qs`, the scheduled units produced results `rs`, and the returned
learnings and URLs are `MergedFrom rs` — deduplicated by exact string
equality, duplicate-free, and containing a string iff some unit
contributed it (so a learning discovered by two sibling branches appears
exactly once). -/
theorem c2_merge (env : Env) (q : Str) (b d : Nat) (l v : List Str) (a : Alloc)
    (r : ResearchResult) (a2 : Alloc)
    (hres : deepResearch env q b d l v a = (.ok r, a2)) :
    ∃ qs rs,
      generateSerpQueries env q b l = .ok qs ∧
      (runUnits (deepResearchF env d) env qs b d l v (planProgress b d qs) a.next
          ⟨a.next + 1, a.anns ++ [(a.next, planProgress b d qs)]⟩).1 = .ok rs ∧
      MergedFrom rs r := by
  rw [deepResearch] at hres
  rcases hp : generateSerpQueries env q b l with e | qs
  · exfalso
    simp only [deepResearchF, hp] at hres
    have h1 := congrArg Prod.fst hres
    simp only at h1
    exact Except.noConfusion h1
  · rcases ht : runUnits (deepResearchF env d) env qs b d l v (planProgress b d qs) a.next
        ⟨a.next + 1, a.anns ++ [(a.next, planProgress b d qs)]⟩ with ⟨r1, p3, a3⟩
    simp only [deepResearchF, hp, ht] at hres
    cases r1 with
    | error e =>
      exfalso
      have h1 := congrArg Prod.fst hres
      simp only at h1
      exact Except.noConfusion h1
    | ok rs =>
      refine ⟨qs, rs, rfl, by rw [ht], ?_⟩
      simp only [Prod.mk.injEq, Except.ok.injEq] at hres
      obtain ⟨hr, -⟩ := hres
      exact hr ▸ mergedFrom_mk rs

/-! ## Claim C1 (amended): caught unit failures contribute the empty result -/

/-- C1 amended: a unit whose search step or distill step fails — a timeout
included — is caught by the unit's error handler: it contributes exactly
the empty result to the merge, leaves progress and announcements
untouched, and the remaining units run exactly as they would have
without it, their results all present alongside the empty one.  (The
original claim extended this to failures of the recursive step; those
propagate instead — see the counterexample.) -/
theorem c1_amended (recur : Str → Nat → Nat → List Str → List Str → Alloc →
      Except Err ResearchResult × Alloc)
    (env : Env) (sq : SerpQuery) (sqs : List SerpQuery) (b d : Nat)
    (l v : List Str) (p : ResearchProgress) (pid : Nat) (a : Alloc)
    (h : unitFails env b sq = true) :
    runUnits recur env (sq :: sqs) b d l v p pid a =
      ((runUnits recur env sqs b d l v p pid a).1.map
          (fun rs => (⟨[], []⟩ : ResearchResult) :: rs),
       (runUnits recur env sqs b d l v p pid a).2) := by
  have hu := runUnit_of_fails recur env b d l v p pid a sq h
  rcases ht : runUnits recur env sqs b d l v p pid a with ⟨r1, p3, a3⟩
  cases r1 with
  | error e => simp only [runUnits, hu, ht, Except.map]
  | ok rs => simp only [runUnits, hu, ht, Except.map]

/-! ## Claim C3: the child budget of every recursive call -/

/-- C3: when a unit recurses (search and distill succeeded and depth
remains), the recursive call receives exactly the halved-rounded-up
breadth `childBreadth b = ceil(b/2)` and the decremented depth
`childDepth d = d - 1`, together with the branch-local accumulators; and
for every positive breadth the child breadth is still positive. -/
theorem c3_child_budget (recur : Str → Nat → Nat → List Str → List Str → Alloc →
      Except Err ResearchResult × Alloc)
    (env : Env) (b d : Nat) (l v : List Str) (p : ResearchProgress)
    (pid : Nat) (a : Alloc) (sq : SerpQuery) (res : SearchResponse)
    (out : DistillOutput)
    (h1 : env.search sq.query = .ok res)
    (h2 : processSerpResult env sq.query res 5 (childBreadth b) = .ok out)
    (h3 : 0 < childDepth d) :
    (1 ≤ b → 1 ≤ childBreadth b) ∧ childBreadth b = b / 2 + b % 2 ∧
    childDepth d = d - 1 ∧
    runUnit recur env b d l v p pid a sq =
      ((recur (mkNextQuery sq.researchGoal out.followUpQuestions) (childBreadth b)
          (childDepth d) (l ++ out.learnings)
          (v ++ compactStr (res.data.map (fun item => item.url)))
          ⟨a.next, a.anns ++ [(pid, recurseProgress p b d sq)]⟩).1,
       recurseProgress p b d sq,
       (recur (mkNextQuery sq.researchGoal out.followUpQuestions) (childBreadth b)
          (childDepth d) (l ++ out.learnings)
          (v ++ compactStr (res.data.map (fun item => item.url)))
          ⟨a.next, a.anns ++ [(pid, recurseProgress p b d sq)]⟩).2) := by
  refine ⟨fun hb => ?_, ?_, rfl, ?_⟩
  · rw [childBreadth]; omega
  · rw [childBreadth]; omega
  · simp only [runUnit, h1, h2, h3, if_true]

/-! ## Claim C8 (amended): planner failures propagate -/

/-- C8 amended: a planner failure at a call's own planning step propagates
out of that entire call (the planning `await` has no local recovery), and
a failure of the recursive child call is NOT recovered by the enclosing
parent branch either: the source returns the child promise without
awaiting it, so the child's rejection bypasses the unit's error handler
and becomes the unit's — hence, through `Promise.all`, the parent
call's — failure.  (The original claim's recovery-at-the-parent-branch
half is refuted by the counterexample.) -/
theorem c8_amended :
    (∀ (env : Env) (q : Str) (b d : Nat) (l v : List Str) (a : Alloc) (e : Err),
        env.planRaw q b l = .error e →
        deepResearch env q b d l v a = (.error e, ⟨a.next + 1, a.anns⟩)) ∧
    (∀ (recur : Str → Nat → Nat → List Str → List Str → Alloc →
          Except Err ResearchResult × Alloc)
        (env : Env) (b d : Nat) (l v : List Str) (p : ResearchProgress)
        (pid : Nat) (a : Alloc) (sq : SerpQuery) (res : SearchResponse)
        (out : DistillOutput) (e : Err) (a2 : Alloc),
        env.search sq.query = .ok res →
        processSerpResult env sq.query res 5 (childBreadth b) = .ok out →
        0 < childDepth d →
        recur (mkNextQuery sq.researchGoal out.followUpQuestions) (childBreadth b)
          (childDepth d) (l ++ out.learnings)
          (v ++ compactStr (res.data.map (fun item => item.url)))
          ⟨a.next, a.anns ++ [(pid, recurseProgress p b d sq)]⟩ = (.error e, a2) →
        runUnit recur env b d l v p pid a sq = (.error e, recurseProgress p b d sq, a2)) := by
  constructor
  · intro env q b d l v a e hplan
    rw [deepResearch]
    have hg : generateSerpQueries env q b l = .error e := by
      rw [generateSerpQueries, hplan]; rfl
    simp only [deepResearchF, hg]
  · intro recur env b d l v p pid a sq res out e a2 hs hp hd hrec
    simp only [runUnit, hs, hp, hd, if_true, hrec]

/-! ## Claim C9: progress records across the call tree -/


theorem AllocExt_refl (lo : Nat) (a : Alloc) : AllocExt lo a a :=
  ⟨Nat.le_refl _, [], by simp, by simp⟩

theorem AllocExt_mono_lo (lo1 lo2 : Nat) (a b : Alloc) (h : lo1 ≤ lo2)
    (he : AllocExt lo2 a b) : AllocExt lo1 a b := by
  obtain ⟨hn, new, he1, hb⟩ := he
  exact ⟨hn, new, he1, fun x hx => ⟨Nat.le_trans h (hb x hx).1, (hb x hx).2⟩⟩

theorem AllocExt_trans (lo : Nat) (a b c : Alloc) (h1 : AllocExt lo a b)
    (h2 : AllocExt lo b c) : AllocExt lo a c := by
  obtain ⟨hn1, new1, he1, hb1⟩ := h1
  obtain ⟨hn2, new2, he2, hb2⟩ := h2
  refine ⟨Nat.le_trans hn1 hn2, new1 ++ new2, ?_, ?_⟩
  · rw [he2, he1, List.append_assoc]
  · intro x hx
    rcases List.mem_append.mp hx with hx | hx
    · exact ⟨(hb1 x hx).1, Nat.lt_of_lt_of_le (hb1 x hx).2 hn2⟩
    · exact hb2 x hx

theorem runUnit_allocExt (recur : Str → Nat → Nat → List Str → List Str → Alloc →
      Except Err ResearchResult × Alloc)
    (env : Env) (b d : Nat) (l v : List Str) (p : ResearchProgress)
    (pid : Nat) (a : Alloc) (sq : SerpQuery)
    (hrec : ∀ q2 b2 d2 l2 v2 (a4 : Alloc),
        AllocExt a4.next a4 (recur q2 b2 d2 l2 v2 a4).2)
    (hpid : pid < a.next) :
    AllocExt pid a (runUnit recur env b d l v p pid a sq).2.2 := by
  rcases hs : env.search sq.query with e | res
  · simp only [runUnit, hs]
    exact AllocExt_refl pid a
  · rcases hp : processSerpResult env sq.query res 5 (childBreadth b) with e | out
    · simp only [runUnit, hs, hp]
      exact AllocExt_refl pid a
    · simp only [runUnit, hs, hp]
      by_cases hd : 0 < childDepth d
      · simp only [hd, if_true]
        have h1 : AllocExt pid a ⟨a.next, a.anns ++ [(pid, recurseProgress p b d sq)]⟩ := by
          refine ⟨Nat.le_refl _, [(pid, recurseProgress p b d sq)], rfl, ?_⟩
          intro x hx
          rw [List.mem_singleton] at hx
          subst hx
          exact ⟨Nat.le_refl _, hpid⟩
        have h2 := hrec (mkNextQuery sq.researchGoal out.followUpQuestions)
          (childBreadth b) (childDepth d) (l ++ out.learnings)
          (v ++ compactStr (res.data.map (fun item => item.url)))
          ⟨a.next, a.anns ++ [(pid, recurseProgress p b d sq)]⟩
        exact AllocExt_trans pid _ _ _ h1
          (AllocExt_mono_lo pid _ _ _ (Nat.le_of_lt hpid) h2)
      · simp only [hd, if_false]
        refine ⟨Nat.le_refl _, [(pid, leafProgress p sq)], rfl, ?_⟩
        intro x hx
        rw [List.mem_singleton] at hx
        subst hx
        exact ⟨Nat.le_refl _, hpid⟩

theorem runUnits_allocExt (recur : Str → Nat → Nat → List Str → List Str → Alloc →
      Except Err ResearchResult × Alloc)
    (env : Env) (qs : List SerpQuery) (b d : Nat) (l v : List Str)
    (p : ResearchProgress) (pid : Nat) (a : Alloc)
    (hrec : ∀ q2 b2 d2 l2 v2 (a4 : Alloc),
        AllocExt a4.next a4 (recur q2 b2 d2 l2 v2 a4).2)
    (hpid : pid < a.next) :
    AllocExt pid a (runUnits recur env qs b d l v p pid a).2.2 := by
  induction qs generalizing p a with
  | nil => exact AllocExt_refl pid a
  | cons sq rest ih =>
    have h1 := runUnit_allocExt recur env b d l v p pid a sq hrec hpid
    rcases hu : runUnit recur env b d l v p pid a sq with ⟨r1, p1, a1⟩
    rw [hu] at h1
    simp only at h1
    cases r1 with
    | error e => simp only [runUnits, hu]; exact h1
    | ok r =>
      have h2 := ih p1 a1 (Nat.lt_of_lt_of_le hpid h1.1)
      rcases ht : runUnits recur env rest b d l v p1 pid a1 with ⟨r2, p2, a2⟩
      rw [ht] at h2
      simp only at h2
      cases r2 with
      | error e => simp only [runUnits, hu, ht]; exact AllocExt_trans pid _ _ _ h1 h2
      | ok rs => simp only [runUnits, hu, ht]; exact AllocExt_trans pid _ _ _ h1 h2

theorem deepResearchF_allocExt (env : Env) :
    ∀ (fuel : Nat) (q : Str) (b d : Nat) (l v : List Str) (a : Alloc),
      AllocExt a.next a (deepResearchF env fuel q b d l v a).2 := by
  intro fuel
  induction fuel with
  | zero => intro q b d l v a; exact AllocExt_refl _ a
  | succ fuel ih =>
    intro q b d l v a
    rcases hp : generateSerpQueries env q b l with e | qs
    · simp only [deepResearchF, hp]
      exact ⟨Nat.le_succ _, [], by simp, by simp⟩
    · have h1 : AllocExt a.next a
          ⟨a.next + 1, a.anns ++ [(a.next, planProgress b d qs)]⟩ := by
        refine ⟨Nat.le_succ _, [(a.next, planProgress b d qs)], rfl, ?_⟩
        intro x hx
        rw [List.mem_singleton] at hx
        subst hx
        exact ⟨Nat.le_refl _, Nat.lt_succ_self _⟩
      have h2 := runUnits_allocExt (deepResearchF env fuel) env qs b d l v
        (planProgress b d qs) a.next
        ⟨a.next + 1, a.anns ++ [(a.next, planProgress b d qs)]⟩
        (fun q2 b2 d2 l2 v2 a4 => ih q2 b2 d2 l2 v2 a4)
        (Nat.lt_succ_self _)
      rcases ht : runUnits (deepResearchF env fuel) env qs b d l v
          (planProgress b d qs) a.next
          ⟨a.next + 1, a.anns ++ [(a.next, planProgress b d qs)]⟩ with ⟨r1, p1, a1⟩
      rw [ht] at h2
      simp only at h2
      have h3 := AllocExt_trans a.next _ _ _ h1 h2
      cases r1 with
      | error e => simp only [deepResearchF, hp, ht]; exact h3
      | ok rs => simp only [deepResearchF, hp, ht]; exact h3

/-- C9 amended: the progress record is not one object shared by reference
across the call tree — each `deepResearch` invocation creates its own
fresh record (the strict inequality: at least one identity, the
invocation's own record, is newly allocated), every update of that record
is in place and announced through the shared callback, and every
announcement produced by the call tree is on a record the tree itself
allocated (identity at least `a.next`), never on a caller's pre-existing
record.  Nested recursive calls therefore announce on records distinct
from their parent's. -/
theorem c9_fresh_records (env : Env) (q : Str) (b d : Nat)
    (l v : List Str) (a : Alloc) :
    a.next < (deepResearch env q b d l v a).2.next ∧
    AllocExt a.next a (deepResearch env q b d l v a).2 := by
  constructor
  · rw [deepResearch]
    rcases hp : generateSerpQueries env q b l with e | qs
    · simp only [deepResearchF, hp]
      exact Nat.lt_succ_self _
    · have h2 := runUnits_allocExt (deepResearchF env d) env qs b d l v
        (planProgress b d qs) a.next
        ⟨a.next + 1, a.anns ++ [(a.next, planProgress b d qs)]⟩
        (fun q2 b2 d2 l2 v2 a4 => deepResearchF_allocExt env d q2 b2 d2 l2 v2 a4)
        (Nat.lt_succ_self _)
      rcases ht : runUnits (deepResearchF env d) env qs b d l v
          (planProgress b d qs) a.next
          ⟨a.next + 1, a.anns ++ [(a.next, planProgress b d qs)]⟩ with ⟨r1, p1, a1⟩
      rw [ht] at h2
      simp only at h2
      have hn : a.next + 1 ≤ a1.next := h2.1
      cases r1 with
      | error e => simp only [deepResearchF, hp, ht]; omega
      | ok rs => simp only [deepResearchF, hp, ht]; omega
  · rw [deepResearch]
    exact deepResearchF_allocExt env (d + 1) q b d l v a

/-! ## Claim C7: the distiller's bounds -/

/-- C7 amended: `processSerpResult` forwards the model collaborator's
structured output unchanged — the requested maxima appear only in the
prompt and the schema descriptions, not as a truncation — so its output
respects the bounds exactly when the collaborator's response does. -/
theorem c7_amended (env : Env) (q : Str) (r : SearchResponse) (nl nf : Nat)
    (out : DistillOutput)
    (hd : env.distill q (mkContents env r) nl nf = .ok out)
    (hl : out.learnings.length ≤ nl)
    (hf : out.followUpQuestions.length ≤ nf) :
    ∀ res, processSerpResult env q r nl nf = .ok res →
      res.learnings.length ≤ nl ∧ res.followUpQuestions.length ≤ nf := by
  intro res h2
  rw [processSerpResult, hd] at h2
  obtain rfl := Except.ok.inj h2
  exact ⟨hl, hf⟩

/-- Witness for C7 at a concrete bound-honouring collaborator. -/
theorem c7_amended_witness :
    envC7w.distill rootQ (mkContents envC7w ⟨[]⟩) 1 1 =
      .ok ⟨["a".toList], ["b".toList]⟩ ∧
    (⟨["a".toList], ["b".toList]⟩ : DistillOutput).learnings.length ≤ 1 ∧
    (⟨["a".toList], ["b".toList]⟩ : DistillOutput).followUpQuestions.length ≤ 1 ∧
    (∀ res, processSerpResult envC7w rootQ ⟨[]⟩ 1 1 = .ok res →
      res.learnings.length ≤ 1 ∧ res.followUpQuestions.length ≤ 1) :=
  ⟨by decide, by decide, by decide,
   c7_amended envC7w rootQ ⟨[]⟩ 1 1 ⟨["a".toList], ["b".toList]⟩
     (by decide) (by decide) (by decide)⟩

/-- C7 as stated is false: the source never truncates `res.object` to the
requested maxima (unlike the planner's `slice(0, numQueries)`), so a
collaborator returning six learnings against `numLearnings = 5` makes
`processSerpResult` return six learnings. -/
theorem c7_counterexample :
    (processSerpResult envC7 rootQ ⟨[]⟩ 5 5).map (fun o => o.learnings.length) =
      .ok 6 ∧ ¬ (6 ≤ 5) :=
  ⟨by decide, by decide⟩

/-! ## Witnesses and counterexamples for the orchestrator claims -/

/-- Witness for C2: the spec's own scenario — two sibling branches both
discover "L1"; it appears exactly once in the aggregate, next to both
branches' URLs. -/
theorem c2_merge_witness :
    deepResearch envC2 rootQ 2 0 [] [] ⟨0, []⟩ =
      (.ok ⟨["L1".toList], ["https://u1".toList, "https://u2".toList]⟩,
       ⟨1, [(0, planProgress 2 0 [qA, qB]),
            (0, leafProgress (planProgress 2 0 [qA, qB]) qA),
            (0, leafProgress (leafProgress (planProgress 2 0 [qA, qB]) qA) qB)]⟩) ∧
    (∃ qs rs,
      generateSerpQueries envC2 rootQ 2 [] = .ok qs ∧
      (runUnits (deepResearchF envC2 0) envC2 qs 2 0 [] [] (planProgress 2 0 qs) 0
          ⟨0 + 1, [] ++ [(0, planProgress 2 0 qs)]⟩).1 = .ok rs ∧
      MergedFrom rs ⟨["L1".toList], ["https://u1".toList, "https://u2".toList]⟩) :=
  ⟨by decide,
   c2_merge envC2 rootQ 2 0 [] [] ⟨0, []⟩
     ⟨["L1".toList], ["https://u1".toList, "https://u2".toList]⟩
     ⟨1, [(0, planProgress 2 0 [qA, qB]),
          (0, leafProgress (planProgress 2 0 [qA, qB]) qA),
          (0, leafProgress (leafProgress (planProgress 2 0 [qA, qB]) qA) qB)]⟩
     (by decide)⟩

/-- Witness for C1 (amended): a unit whose search times out contributes
the empty result and leaves its sibling's processing untouched. -/
theorem c1_amended_witness :
    unitFails envC1w 2 qTO = true ∧
    runUnits (deepResearchF envC1w 1) envC1w (qTO :: [qB]) 2 1 [] []
        (planProgress 2 1 [qTO, qB]) 0 ⟨1, []⟩ =
      ((runUnits (deepResearchF envC1w 1) envC1w [qB] 2 1 [] []
          (planProgress 2 1 [qTO, qB]) 0 ⟨1, []⟩).1.map
          (fun rs => (⟨[], []⟩ : ResearchResult) :: rs),
       (runUnits (deepResearchF envC1w 1) envC1w [qB] 2 1 [] []
          (planProgress 2 1 [qTO, qB]) 0 ⟨1, []⟩).2) :=
  ⟨by decide,
   c1_amended (deepResearchF envC1w 1) envC1w qTO [qB] 2 1 [] []
     (planProgress 2 1 [qTO, qB]) 0 ⟨1, []⟩ (by decide)⟩

/-- C1 as stated is false for the recursion step: at depth 2, branch B's
recursive child fails at its planning step; the unit does not contribute
`(learnings := [], visitedUrls := [])` — the child's rejection bypasses
the unit's error handler (the source returns the child promise without
awaiting it inside the `try`), the whole call fails, and sibling A's
results appear in no final aggregate at all. -/
theorem c1_counterexample :
    (deepResearch envC1x rootQ 2 2 [] [] ⟨0, []⟩).1 =
      .error (.failure "planner down".toList) := by
  decide

/-- Witness for C3: a concrete unit whose recursion branch is taken with
breadth 3 and depth 2; the child call receives breadth 2 and depth 1. -/
theorem c3_child_budget_witness :
    envRec.search qA.query = .ok ⟨[itemU1]⟩ ∧
    processSerpResult envRec qA.query ⟨[itemU1]⟩ 5 (childBreadth 3) = .ok wOut ∧
    0 < childDepth 2 ∧
    ((1 ≤ 3 → 1 ≤ childBreadth 3) ∧ childBreadth 3 = 3 / 2 + 3 % 2 ∧
     childDepth 2 = 2 - 1 ∧
     runUnit recurW envRec 3 2 [] [] (planProgress 3 2 [qA]) 0 ⟨1, []⟩ qA =
       ((recurW (mkNextQuery qA.researchGoal wOut.followUpQuestions) (childBreadth 3)
           (childDepth 2) ([] ++ wOut.learnings)
           ([] ++ compactStr ((⟨[itemU1]⟩ : SearchResponse).data.map
             (fun item => item.url)))
           ⟨1, [] ++ [(0, recurseProgress (planProgress 3 2 [qA]) 3 2 qA)]⟩).1,
        recurseProgress (planProgress 3 2 [qA]) 3 2 qA,
        (recurW (mkNextQuery qA.researchGoal wOut.followUpQuestions) (childBreadth 3)
           (childDepth 2) ([] ++ wOut.learnings)
           ([] ++ compactStr ((⟨[itemU1]⟩ : SearchResponse).data.map
             (fun item => item.url)))
           ⟨1, [] ++ [(0, recurseProgress (planProgress 3 2 [qA]) 3 2 qA)]⟩).2)) :=
  ⟨by decide, by decide, by decide,
   c3_child_budget recurW envRec 3 2 [] [] (planProgress 3 2 [qA]) 0 ⟨1, []⟩ qA
     ⟨[itemU1]⟩ wOut (by decide) (by decide) (by decide)⟩

/-- Witness for C8 (amended), both halves: a root planning failure
propagates out of the call unchanged, and a failing recursive child makes
the enclosing unit fail rather than contribute the empty result. -/
theorem c8_amended_witness :
    (envC8w1.planRaw rootQ 1 [] = .error (.failure "nope".toList) ∧
     deepResearch envC8w1 rootQ 1 0 [] [] ⟨0, []⟩ =
       (.error (.failure "nope".toList), ⟨0 + 1, []⟩)) ∧
    (envRec.search qA.query = .ok ⟨[itemU1]⟩ ∧
     processSerpResult envRec qA.query ⟨[itemU1]⟩ 5 (childBreadth 1) = .ok wOut ∧
     0 < childDepth 2 ∧
     recurW (mkNextQuery qA.researchGoal wOut.followUpQuestions) (childBreadth 1)
       (childDepth 2) ([] ++ wOut.learnings)
       ([] ++ compactStr ((⟨[itemU1]⟩ : SearchResponse).data.map
         (fun item => item.url)))
       ⟨1, [] ++ [(0, recurseProgress (planProgress 1 2 [qA]) 1 2 qA)]⟩ =
       (.error (.failure "boom".toList),
        ⟨1, [] ++ [(0, recurseProgress (planProgress 1 2 [qA]) 1 2 qA)]⟩) ∧
     runUnit recurW envRec 1 2 [] [] (planProgress 1 2 [qA]) 0 ⟨1, []⟩ qA =
       (.error (.failure "boom".toList),
        recurseProgress (planProgress 1 2 [qA]) 1 2 qA,
        ⟨1, [] ++ [(0, recurseProgress (planProgress 1 2 [qA]) 1 2 qA)]⟩)) :=
  ⟨⟨by decide,
    c8_amended.1 envC8w1 rootQ 1 0 [] [] ⟨0, []⟩ (.failure "nope".toList) (by decide)⟩,
   ⟨by decide, by decide, by decide, by decide,
    c8_amended.2 recurW envRec 1 2 [] [] (planProgress 1 2 [qA]) 0 ⟨1, []⟩ qA
      ⟨[itemU1]⟩ wOut (.failure "boom".toList)
      ⟨1, [] ++ [(0, recurseProgress (planProgress 1 2 [qA]) 1 2 qA)]⟩
      (by decide) (by decide) (by decide) (by decide)⟩⟩

/-- C8 as stated is false in its recovery half: here the nested (depth 1)
call's planner fails; were the enclosing parent branch the recovery
boundary, the root call would return the empty aggregate — instead the
nested planning failure propagates out of the root call itself. -/
theorem c8_counterexample :
    (deepResearch envC8x rootQ 1 2 [] [] ⟨0, []⟩).1 =
      .error (.failure "no plan".toList) := by
  decide

/-- C9 as stated is false: in one successful root call (depth 2), the
progress callback is invoked with two distinct records — identity 0 (the
root invocation's record) and identity 1 (the nested invocation's own,
freshly created record) — not with one record shared by reference across
the call tree. -/
theorem c9_counterexample :
    0 ∈ ((deepResearch envC9x rootQ 1 2 [] [] ⟨0, []⟩).2.anns.map Prod.fst) ∧
    1 ∈ ((deepResearch envC9x rootQ 1 2 [] [] ⟨0, []⟩).2.anns.map Prod.fst) ∧
    (0 : Nat) ≠ 1 := by
  decide

/-- Witness for C10: both units fail while the caller passes non-empty
accumulated learnings and URLs; the result is nevertheless empty. -/
theorem c10_empty_result_witness :
    generateSerpQueries envC10 rootQ 2 ["old".toList] = .ok [qA, qB] ∧
    [qA, qB].all (fun sq => unitFails envC10 2 sq) = true ∧
    (deepResearch envC10 rootQ 2 1 ["old".toList] ["u0".toList] ⟨0, []⟩).1 =
      .ok ⟨[], []⟩ :=
  ⟨by decide, by decide,
   c10_empty_result envC10 rootQ 2 1 ["old".toList] ["u0".toList] ⟨0, []⟩ [qA, qB]
     (by decide) (by decide)⟩
